import Mathlib

/-!
Shallow embedding of the containerd image-import core: the OCI tar importer
(src/imageformats/oci/importer.go) and the legacy Docker importer
(src/contrib/docker1/importer.go), together with the parts of their external
collaborators that the source relies on (the filter-expression evaluator of the
containerd filters package and the content store's write-and-commit primitive),
which are modelled from the specification since their code is not part of the
sources under study.
-/

deriving instance DecidableEq for Except

namespace ContainerdImport

/-! ## String helpers

Go's `strings.Split`, `strings.HasPrefix` and `strings.HasSuffix`, re-expressed
over the character list of a `String` so that they compute by kernel reduction.
`strSplit` splits on a single separator character, which is how the source uses
`strings.Split` (always with separator "/"). -/

def splitOnCharAux (sep : Char) : List Char → List Char → List (List Char)
  | [], acc => [acc.reverse]
  | c :: cs, acc =>
    if c = sep then acc.reverse :: splitOnCharAux sep cs []
    else splitOnCharAux sep cs (c :: acc)

/-- `strings.Split s (String.singleton sep)`: the pieces of `s` between
occurrences of `sep`; the empty string yields `[""]`, as in Go. -/
def strSplit (s : String) (sep : Char) : List String :=
  (splitOnCharAux sep s.data []).map fun l => ⟨l⟩

/-- `strings.HasPrefix s p`. -/
def strStartsWith (s p : String) : Bool :=
  decide (s.data.take p.data.length = p.data)

/-- `strings.HasSuffix s p`. -/
def strEndsWith (s p : String) : Bool :=
  decide (s.data.reverse.take p.data.length = p.data.reverse)

/-- Go's `%q` verb as used by `errors.Errorf` in the source: the argument
wrapped in double quotes (escaping inside the argument is not modelled; no
claim depends on it). -/
def quoted (s : String) : String := "\"" ++ s ++ "\""

/-! ## Digests and hashing -/

/-- A structured content digest, `<algorithm>:<hex>`, as produced by
`digest.NewDigestFromHex` / `digest.FromBytes`. -/
structure Digest where
  algo : String
  hex : String
deriving DecidableEq, Repr

/-- `Digest.String()`: `algo ++ ":" ++ hex`. -/
def digestString (d : Digest) : String := d.algo ++ ":" ++ d.hex

/-- The cryptographic hash is external (go-digest); the embedding is
parametrised by an arbitrary hash function from an algorithm name and a byte
sequence to the hex encoding of the hash. -/
abbrev Bytes := List Nat

abbrev HashFn := String → Bytes → String

/-- Modelled from the spec: `digest.Algorithm.Available()` of the external
go-digest package — the recognized digest algorithms. -/
def algoAvailable (a : String) : Bool :=
  a = "sha256" || a = "sha384" || a = "sha512"

/-- `digest.Canonical`, the algorithm used when the store computes a digest
itself (`digest.FromBytes`, `cw.Digest()`). -/
def defaultAlgo : String := "sha256"

/-- The digest the store computes over `data` (canonical algorithm). -/
def computedDigest (H : HashFn) (data : Bytes) : Digest :=
  ⟨defaultAlgo, H defaultAlgo data⟩

/-! ## OCI data model (ocispec) -/

/-- `ocispec.Platform` (the fields the source reads). -/
structure Platform where
  architecture : String
  os : String
  variant : String
deriving DecidableEq, Repr

/-- `ocispec.Descriptor` (the fields the source reads or writes). The digest
field is the raw string form, as in ocispec where `digest.Digest` is a string
type. -/
structure Descriptor where
  mediaType : String
  digest : String
  size : Nat
  platform : Option Platform
  annotations : List (String × String)
deriving DecidableEq, Repr

/-- `ocispec.Manifest` with `specs.Versioned` flattened in (the fields the
source writes). -/
structure Manifest where
  schemaVersion : Nat
  config : Descriptor
  layers : List Descriptor
deriving DecidableEq, Repr

/-- `ocispec.AnnotationRefName`. -/
def AnnotationRefName : String := "org.opencontainers.image.ref.name"

/-- `images.MediaTypeDockerSchema2Manifest`. -/
def MediaTypeDockerSchema2Manifest : String :=
  "application/vnd.docker.distribution.manifest.v2+json"

/-- `images.MediaTypeDockerSchema2Layer`. -/
def MediaTypeDockerSchema2Layer : String :=
  "application/vnd.docker.image.rootfs.diff.tar"

/-- `images.MediaTypeDockerSchema2Config`. -/
def MediaTypeDockerSchema2Config : String :=
  "application/vnd.docker.container.image.v1+json"

/-! ## Archive records -/

/-- `tar.Header.Typeflag`, collapsed to the cases the source distinguishes. -/
inductive TypeFlag where
  | reg
  | regA
  | dir
  | other
deriving DecidableEq, Repr

/-- One archive record: its header name, type flag and declared size, plus the
payload bytes the tar reader yields for it. -/
structure TarRecord where
  name : String
  typeflag : TypeFlag
  size : Nat
  content : Bytes
deriving DecidableEq, Repr

/-- The regular-file check of both import loops:
`hdr.Typeflag == tar.TypeReg || hdr.Typeflag == tar.TypeRegA`. -/
def TarRecord.isRegFile (r : TarRecord) : Prop :=
  r.typeflag = TypeFlag.reg ∨ r.typeflag = TypeFlag.regA

instance (r : TarRecord) : Decidable r.isRegFile := by
  unfold TarRecord.isRegFile; infer_instance

/-! ## Errors

The source fails in two distinguishable ways: by wrapping one of the typed
errdefs sentinel errors (`errdefs.ErrNotFound`, `errdefs.ErrAmbiguous`), which
callers can recognize with `errors.Cause`, or by `errors.Errorf`, which yields
an untyped error carrying only its message. The spec-modelled content store
contributes the digest-mismatch and size-mismatch failures, and the
spec-modelled filter parser contributes the invalid-expression failure. -/

inductive ImportErr where
  /-- `errors.Wrapf(errdefs.ErrNotFound, msg)` — typed, caller-distinguishable. -/
  | notFound (msg : String)
  /-- `errors.Wrapf(errdefs.ErrAmbiguous, msg)` — typed, caller-distinguishable. -/
  | ambiguous (msg : String)
  /-- a failure of `filters.Parse` (spec: InvalidExpression). -/
  | invalidExpression (filter : String)
  /-- spec: DigestMismatch — the store rejected a commit whose computed digest
  disagrees with the expected digest supplied by the caller. -/
  | digestMismatch (expected computed : Digest)
  /-- spec: TruncatedInput — fewer bytes available than declared. -/
  | truncatedInput
  /-- spec: OversizedInput — more bytes available than declared. -/
  | oversizedInput
  /-- `errors.Errorf(msg)` — untyped; carries only its message. -/
  | generic (msg : String)
deriving DecidableEq, Repr

/-- Whether a failed result failed with the typed errdefs NotFound error. -/
def errIsNotFound {α : Type} : Except ImportErr α → Bool
  | .error (.notFound _) => true
  | _ => false

/-- Whether a result is a failure. -/
def isFailure {α : Type} : Except ImportErr α → Bool
  | .error _ => true
  | .ok _ => false

/-! ## Content store

Modelled from the spec: the external content-addressable store (§4.2, §6).
A store is its set of committed blobs, keyed by digest. -/

abbrev Store := List (Digest × Bytes)

def storeLookup : Store → Digest → Option Bytes
  | [], _ => none
  | (d, b) :: st, key => if d = key then some b else storeLookup st key

/-- Committing is idempotent: identical content under the same digest is
deduplicated. -/
def storeCommit (st : Store) (d : Digest) (b : Bytes) : Store :=
  if (storeLookup st d).isSome then st else (d, b) :: st

/-- Modelled from the spec: `content.WriteBlob` and the writer/commit
primitive of the external content store (§4.2, §6): copy exactly `size` bytes
(TruncatedInput / OversizedInput on a shortfall or excess), compute the digest
over the copied bytes, verify it against the expected digest when one is
supplied (DigestMismatch otherwise), and commit idempotently under the
computed digest, returning it. -/
def writeBlob (H : HashFn) (st : Store) (data : Bytes) (size : Nat)
    (expected : Option Digest) : Except ImportErr (Store × Digest) :=
  if data.length < size then .error .truncatedInput
  else if size < data.length then .error .oversizedInput
  else
    match expected with
    | some d =>
      let computed : Digest := ⟨d.algo, H d.algo data⟩
      if computed = d then .ok (storeCommit st computed data, computed)
      else .error (.digestMismatch d computed)
    | none =>
      let computed := computedDigest H data
      .ok (storeCommit st computed data, computed)

/-! ## Filter expressions

Modelled from the spec: `filters.Parse` and `filters.Filter.Match` of the
external filters package (§4.4): a filter expression is a comma-separated
conjunction of `field==value` clauses; the empty expression parses to the
empty conjunction, which matches everything; a clause matches iff the
candidate's adaptor exposes the named field and its value equals the
right-hand side exactly. -/

abbrev Clause := String × String

abbrev Filter := List Clause

def parseClause (s : String) : Option Clause :=
  match strSplit s '=' with
  | [f, "", v] => if f = "" then none else some (f, v)
  | _ => none

def parseFilter (s : String) : Option Filter :=
  if s = "" then some []
  else (strSplit s ',').mapM parseClause

/-- `filters.Adaptor`: a named-field view of a candidate, `none` standing for
Go's `("", false)`. -/
abbrev Adaptor := String → Option String

/-- `filters.Filter.Match`: every clause's field is present with exactly the
clause's value. -/
def filterMatch (f : Filter) (a : Adaptor) : Bool :=
  f.all fun c => decide (a c.1 = some c.2)

/-! ## Generic tables and indexing -/

/-- Lookup in a name-keyed table (Go map lookup; insertion conses, so the
most recent binding wins, matching map overwrite). -/
def tblLookup {α : Type} : List (String × α) → String → Option α
  | [], _ => none
  | (k, v) :: t, key => if k = key then some v else tblLookup t key

/-- `for i, m := range ...`: the list paired with ordinal positions starting
at `i`. -/
def withIndexFrom {α : Type} : Nat → List α → List (Nat × α)
  | _, [] => []
  | i, a :: as => (i, a) :: withIndexFrom (i + 1) as

/-- Messages of the two typed selection failures
(`errors.Wrapf(errdefs.ErrAmbiguous, "filter %q matched %d items", ...)` and
`errors.Wrapf(errdefs.ErrNotFound, "filter %q did not match any item", ...)`). -/
def ambiguousMsg (filter : String) (n : Nat) : String :=
  "filter " ++ quoted filter ++ " matched " ++ toString n ++ " items"

def notFoundMsg (filter : String) : String :=
  "filter " ++ quoted filter ++ " did not match any item"

/-! ## The OCI importer (src/imageformats/oci/importer.go) -/

namespace oci

/-- `adaptImage`: the named-field view of one index entry (its ordinal
position and its descriptor). -/
def adaptImage (index : Nat) (m : Descriptor) : Adaptor := fun field =>
  if field = "index" then some (toString index)
  else if field = "tag" then tblLookup m.annotations AnnotationRefName
  else if field = "digest" then
    if m.digest.length > 0 then some m.digest else none
  else if field = "mediaType" then
    if m.mediaType.length > 0 then some m.mediaType else none
  else if field = "architecture" then
    match m.platform with
    | some p => if p.architecture ≠ "" then some p.architecture else none
    | none => none
  else if field = "os" then
    match m.platform with
    | some p => if p.os ≠ "" then some p.os else none
    | none => none
  else if field = "variant" then
    match m.platform with
    | some p => if p.variant ≠ "" then some p.variant else none
    | none => none
  else none

/-- The `matched` list accumulated by `filterManifests`: the subsequence of
`manifests` whose adaptor satisfies the parsed predicate. -/
def matchedManifests (f : Filter) (manifests : List Descriptor) : List Descriptor :=
  ((withIndexFrom 0 manifests).filter fun im =>
    filterMatch f (adaptImage im.1 im.2)).map fun im => im.2

/-- `filterManifests`: parse the expression, collect the matching entries,
then fail Ambiguous on more than one match, NotFound on none, and return the
single match otherwise. -/
def filterManifests (manifests : List Descriptor) (filter : String) :
    Except ImportErr Descriptor :=
  match parseFilter filter with
  | none => .error (.invalidExpression filter)
  | some f =>
    let matched := matchedManifests f manifests
    if matched.length > 1 then .error (.ambiguous (ambiguousMsg filter matched.length))
    else
      match matched with
      | [] => .error (.notFound (notFoundMsg filter))
      | m :: _ => .ok m

/-- `onUntarIndexJSON`: read the record, unmarshal it as an `ocispec.Index`
(the unmarshalling is external, supplied as `decIdx`), and filter its
manifest list. -/
def onUntarIndexJSON (decIdx : Bytes → Option (List Descriptor)) (content : Bytes)
    (filter : String) : Except ImportErr Descriptor :=
  match decIdx content with
  | none => .error (.generic "invalid index JSON")
  | some idx => filterManifests idx filter

/-- `onUntarBlob`: split the record name (`blobs/<algo>/<hex>`), require
exactly three segments and a recognized algorithm, and write the blob through
the store with the name-encoded digest as the expected digest. -/
def onUntarBlob (H : HashFn) (st : Store) (name : String) (size : Nat)
    (content : Bytes) : Except ImportErr Store :=
  match strSplit name '/' with
  | [_, algo, hex] =>
    if algoAvailable algo then
      match writeBlob H st content size (some ⟨algo, hex⟩) with
      | .error e => .error e
      | .ok (st2, _) => .ok st2
    else .error (.generic ("unsupported algorithm: " ++ algo))
  | _ => .error (.generic ("unexpected name: " ++ quoted name))

/-- The record loop of `Import`: walk the records in order; skip non-regular
records; parse and filter `index.json` immediately, remembering the selected
descriptor; ingest records under `blobs/`; ignore everything else. -/
def importLoop (H : HashFn) (decIdx : Bytes → Option (List Descriptor))
    (filter : String) :
    List TarRecord → Store → Option Descriptor →
      Except ImportErr (Store × Option Descriptor)
  | [], st, desc => .ok (st, desc)
  | r :: rest, st, desc =>
    if ¬ r.isRegFile then importLoop H decIdx filter rest st desc
    else if r.name = "index.json" then
      match onUntarIndexJSON decIdx r.content filter with
      | .error e => .error e
      | .ok d => importLoop H decIdx filter rest st (some d)
    else if strStartsWith r.name "blobs/" then
      match onUntarBlob H st r.name r.size r.content with
      | .error e => .error e
      | .ok st2 => importLoop H decIdx filter rest st2 desc
    else importLoop H decIdx filter rest st desc

/-- `Import`: run the loop over the whole stream from an empty per-call state;
if no descriptor was selected, fail with `errors.Errorf` ("no descriptor
found..."), else return the selected descriptor (and the store state). -/
def Import (H : HashFn) (decIdx : Bytes → Option (List Descriptor))
    (records : List TarRecord) (filter : String) :
    Except ImportErr (Store × Descriptor) :=
  match importLoop H decIdx filter records [] none with
  | .error e => .error e
  | .ok (_, none) =>
    .error (.generic ("no descriptor found for filter " ++ quoted filter))
  | .ok (st, some d) => .ok (st, d)

end oci

/-! ## The legacy Docker importer (src/contrib/docker1/importer.go) -/

namespace docker1

/-- One entry of `manifest.json` (docker1's `manifest` struct). -/
structure manifest where
  Config : String
  RepoTags : List String
  Layers : List String
  Parent : String
deriving DecidableEq, Repr

/-- The fields of `ocispec.Image` the source reads after parsing a config
blob. -/
structure Image where
  architecture : String
  os : String
deriving DecidableEq, Repr

/-- `imageConfig`: the committed descriptor of a config blob together with its
parsed image metadata. -/
structure imageConfig where
  desc : Descriptor
  img : Image
deriving DecidableEq, Repr

/-- `isLayerTar`: exactly two path segments and the suffix `/layer.tar`. -/
def isLayerTar (name : String) : Bool :=
  (strSplit name '/').length = 2 && strEndsWith name "/layer.tar"

/-- `isDotJSON`: exactly one path segment and the suffix `.json`. -/
def isDotJSON (name : String) : Bool :=
  (strSplit name '/').length = 1 && strEndsWith name ".json"

/-- `adaptImage`: the legacy variant's named-field view recognizes only
`index`. -/
def adaptImage (index : Nat) (_m : manifest) : Adaptor := fun field =>
  if field = "index" then some (toString index)
  else none

/-- The message of the unsupported-parent failure
(`errors.Errorf("manifest.Parent (%q) is not supported", m.Parent)`). -/
def parentMsg (parent : String) : String :=
  "manifest.Parent (" ++ quoted parent ++ ") is not supported"

/-- The loop body of `filterManifests`: walk the entries in order; fail at
the first entry whose `Parent` is non-empty; otherwise accumulate the entries
matching the predicate. -/
def collectMatched (f : Filter) : List (Nat × manifest) → Except ImportErr (List manifest)
  | [] => .ok []
  | (i, m) :: rest =>
    if m.Parent ≠ "" then .error (.generic (parentMsg m.Parent))
    else
      match collectMatched f rest with
      | .error e => .error e
      | .ok tail =>
        .ok (if filterMatch f (adaptImage i m) then m :: tail else tail)

/-- The subsequence of entries matching the predicate (what `matched` holds
when no entry has a non-empty `Parent`). -/
def matchedEntries (f : Filter) (manifests : List manifest) : List manifest :=
  ((withIndexFrom 0 manifests).filter fun im =>
    filterMatch f (adaptImage im.1 im.2)).map fun im => im.2

/-- `filterManifests`: parse the expression, walk the entries (failing on a
non-empty `Parent`), then fail Ambiguous on more than one match, NotFound on
none, and return the single match otherwise. -/
def filterManifests (manifests : List manifest) (filter : String) :
    Except ImportErr manifest :=
  match parseFilter filter with
  | none => .error (.invalidExpression filter)
  | some f =>
    match collectMatched f (withIndexFrom 0 manifests) with
    | .error e => .error e
    | .ok matched =>
      if matched.length > 1 then .error (.ambiguous (ambiguousMsg filter matched.length))
      else
        match matched with
        | [] => .error (.notFound (notFoundMsg filter))
        | m :: _ => .ok m

/-- `onUntarManifestJSON`: read the record, unmarshal it as a list of
manifest entries (external, supplied as `decM`), and filter it. -/
def onUntarManifestJSON (decM : Bytes → Option (List manifest)) (content : Bytes)
    (filter : String) : Except ImportErr manifest :=
  match decM content with
  | none => .error (.generic "invalid manifest JSON")
  | some mfsts => filterManifests mfsts filter

/-- `onUntarLayerTar`: stream the layer blob into the store with no expected
digest; the committed descriptor carries the schema2 layer media type, the
declared size and the computed digest. -/
def onUntarLayerTar (H : HashFn) (st : Store) (size : Nat) (content : Bytes) :
    Except ImportErr (Store × Descriptor) :=
  match writeBlob H st content size none with
  | .error e => .error e
  | .ok (st2, dgst) =>
    .ok (st2,
      { mediaType := MediaTypeDockerSchema2Layer
        digest := digestString dgst
        size := size
        platform := none
        annotations := [] })

/-- `onUntarDotJSON`: stream the config blob into the store with no expected
digest while retaining its bytes, then unmarshal them as an `ocispec.Image`
(external, supplied as `decI`). -/
def onUntarDotJSON (H : HashFn) (decI : Bytes → Option Image) (st : Store)
    (size : Nat) (content : Bytes) : Except ImportErr (Store × imageConfig) :=
  match writeBlob H st content size none with
  | .error e => .error e
  | .ok (st2, dgst) =>
    match decI content with
    | none => .error (.generic "invalid image JSON")
    | some img =>
      .ok (st2,
        { desc :=
            { mediaType := MediaTypeDockerSchema2Config
              digest := digestString dgst
              size := size
              platform := none
              annotations := [] }
          img := img })

/-- The per-call mutable state of `Import`'s record loop: the store, the
pending selected manifest entry, and the layer and config tables keyed by
archive-local filename. -/
structure ScanState where
  store : Store
  mfst : Option manifest
  layers : List (String × Descriptor)
  configs : List (String × imageConfig)
deriving DecidableEq, Repr

/-- The fresh per-call state. -/
def initState : ScanState := ⟨[], none, [], []⟩

/-- The record loop of `Import`: walk the records in order; skip non-regular
records; parse and filter `manifest.json` immediately; ingest layer records
into the layer table and config records into the config table; ignore
everything else. -/
def importLoop (H : HashFn) (decM : Bytes → Option (List manifest))
    (decI : Bytes → Option Image) (filter : String) :
    List TarRecord → ScanState → Except ImportErr ScanState
  | [], s => .ok s
  | r :: rest, s =>
    if ¬ r.isRegFile then importLoop H decM decI filter rest s
    else if r.name = "manifest.json" then
      match onUntarManifestJSON decM r.content filter with
      | .error e => .error e
      | .ok m => importLoop H decM decI filter rest { s with mfst := some m }
    else if isLayerTar r.name then
      match onUntarLayerTar H s.store r.size r.content with
      | .error e => .error e
      | .ok (st2, d) =>
        importLoop H decM decI filter rest
          { s with store := st2, layers := (r.name, d) :: s.layers }
    else if isDotJSON r.name then
      match onUntarDotJSON H decI s.store r.size r.content with
      | .error e => .error e
      | .ok (st2, c) =>
        importLoop H decM decI filter rest
          { s with store := st2, configs := (r.name, c) :: s.configs }
    else importLoop H decM decI filter rest s

/-- The message of the missing-config failure
(`errors.Errorf("image config not %q found for filter %q", ...)`). -/
def missingConfigMsg (config filter : String) : String :=
  "image config not " ++ quoted config ++ " found for filter " ++ quoted filter

/-- The message of the missing-layer failure
(`errors.Errorf("layer %q not found", f)`). -/
def missingLayerMsg (f : String) : String :=
  "layer " ++ quoted f ++ " not found"

/-- The layer-resolution loop of `makeDockerSchema2Manifest`: look each layer
filename up in the layer table in order, failing at the first one that is
absent. -/
def resolveLayers (layers : List (String × Descriptor)) :
    List String → Except ImportErr (List Descriptor)
  | [] => .ok []
  | f :: fs =>
    match tblLookup layers f with
    | none => .error (.generic (missingLayerMsg f))
    | some d =>
      match resolveLayers layers fs with
      | .error e => .error e
      | .ok ds => .ok (d :: ds)

/-- `makeDockerSchema2Manifest`: assemble the canonical schema2 manifest —
schemaVersion 2, the config's committed descriptor, and the ordered layer
descriptors resolved through the layer table. -/
def makeDockerSchema2Manifest (mfst : manifest) (config : imageConfig)
    (layers : List (String × Descriptor)) : Except ImportErr Manifest :=
  match resolveLayers layers mfst.Layers with
  | .error e => .error e
  | .ok ds => .ok { schemaVersion := 2, config := config.desc, layers := ds }

/-- `writeDockerSchema2Manifest`: serialize the manifest (external, supplied
as `encM`), hash it, write it through the store with the self-computed digest
as the expected digest, and produce the final descriptor, whose platform is
populated only when the parsed architecture or OS is non-empty. -/
def writeDockerSchema2Manifest (H : HashFn) (encM : Manifest → Bytes)
    (st : Store) (m : Manifest) (arch os : String) :
    Except ImportErr (Store × Descriptor) :=
  let manifestBytes := encM m
  let manifestDigest := computedDigest H manifestBytes
  match writeBlob H st manifestBytes manifestBytes.length (some manifestDigest) with
  | .error e => .error e
  | .ok (st2, _) =>
    .ok (st2,
      { mediaType := MediaTypeDockerSchema2Manifest
        digest := digestString manifestDigest
        size := manifestBytes.length
        platform :=
          if arch ≠ "" ∨ os ≠ "" then some ⟨arch, os, ""⟩ else none
        annotations := [] })

/-- `Import`: run the loop over the whole stream from the fresh per-call
state; fail if no manifest entry was selected; look the selected entry's
config up in the config table (failing if absent); assemble the schema2
manifest; and write it out, carrying the parsed architecture/OS forward. -/
def Import (H : HashFn) (decM : Bytes → Option (List manifest))
    (decI : Bytes → Option Image) (encM : Manifest → Bytes)
    (records : List TarRecord) (filter : String) :
    Except ImportErr (Store × Descriptor) :=
  match importLoop H decM decI filter records initState with
  | .error e => .error e
  | .ok s =>
    match s.mfst with
    | none => .error (.generic ("no manifest found for filter " ++ quoted filter))
    | some mfst =>
      match tblLookup s.configs mfst.Config with
      | none => .error (.generic (missingConfigMsg mfst.Config filter))
      | some config =>
        match makeDockerSchema2Manifest mfst config s.layers with
        | .error e => .error e
        | .ok m2 =>
          writeDockerSchema2Manifest H encM s.store m2
            config.img.architecture config.img.os

end docker1

/-! ## Derived predicates and concrete fixtures -/

/-- Every blob committed to the store is committed under a digest whose hex
part is the hash of exactly the committed bytes. -/
def storeOk (H : HashFn) (st : Store) : Prop :=
  ∀ dg b, (dg, b) ∈ st → dg.hex = H dg.algo b

/-- The default Descriptor (only used to express a lookup that is known to
succeed as a total function). -/
def descDefault : Descriptor := ⟨"", "", 0, none, []⟩

/-- A concrete stand-in hash function (the decimal length of the input). -/
def hash0 : HashFn := fun _ b => toString b.length

/-- A concrete index entry. -/
def d0 : Descriptor :=
  ⟨"application/vnd.oci.image.manifest.v1+json", "sha256:aa", 0, none,
    [(AnnotationRefName, "foo")]⟩

/-- A concrete legacy manifest entry with no Parent. -/
def dm0 : docker1.manifest := ⟨"c.json", [], [], ""⟩

/-- A legacy manifest entry referencing one layer. -/
def dm1 : docker1.manifest := ⟨"c.json", [], ["l1/layer.tar"], ""⟩

/-- The imageConfig that the scan of an empty "c.json" record commits under
hash0. -/
def cfg1 : docker1.imageConfig :=
  ⟨⟨MediaTypeDockerSchema2Config, "sha256:0", 0, none, []⟩, ⟨"", ""⟩⟩

/-- The scan state after [manifest.json, c.json] with dm1 selected. -/
def sB : docker1.ScanState :=
  ⟨[(⟨"sha256", "0"⟩, [])], some dm1, [], [("c.json", cfg1)]⟩

/-- A concrete schema2 manifest. -/
def mnf0 : Manifest := ⟨2, d0, []⟩

/-- The descriptor produced for mnf0 under hash0 / encM0 with platform
amd64/linux. -/
def descX : Descriptor :=
  ⟨MediaTypeDockerSchema2Manifest, "sha256:0", 0, some ⟨"amd64", "linux", ""⟩, []⟩

/-- Concrete stand-ins for the external JSON codecs. -/
def decIdx0 : Bytes → Option (List Descriptor) := fun _ => none

def decM0 : Bytes → Option (List docker1.manifest) := fun _ => none

def decI0 : Bytes → Option docker1.Image := fun _ => none

def encM0 : Manifest → Bytes := fun _ => []

/-! ## Helper lemmas -/

/-- The empty conjunction matches every adaptor. -/
theorem filterMatch_nil (a : Adaptor) : filterMatch [] a = true := rfl

/-- The empty expression parses to the empty conjunction. -/
theorem parseFilter_empty : parseFilter "" = some [] := rfl

theorem withIndexFrom_map_snd {α : Type} (i : Nat) (l : List α) :
    (withIndexFrom i l).map (fun p => p.2) = l := by
  induction l generalizing i with
  | nil => rfl
  | cons a as ih => simp [withIndexFrom, ih]

theorem withIndexFrom_mem_snd {α : Type} {i : Nat} {l : List α} {p : Nat × α}
    (h : p ∈ withIndexFrom i l) : p.2 ∈ l := by
  induction l generalizing i with
  | nil => simp [withIndexFrom] at h
  | cons a as ih =>
    simp only [withIndexFrom, List.mem_cons] at h
    rcases h with h | h
    · subst h; simp
    · exact List.mem_cons_of_mem _ (ih h)

/-- With the empty expression every entry is matched. -/
theorem oci.matchedManifests_nil (ms : List Descriptor) :
    oci.matchedManifests [] ms = ms := by
  unfold oci.matchedManifests
  have key : ∀ (i : Nat) (l : List Descriptor),
      ((withIndexFrom i l).filter fun im =>
        filterMatch [] (oci.adaptImage im.1 im.2)).map (fun im => im.2) = l := by
    intro i l
    induction l generalizing i with
    | nil => rfl
    | cons a as ih =>
      simp [withIndexFrom, List.filter_cons, filterMatch, ih, withIndexFrom_map_snd]
  exact key 0 ms

theorem docker1.matchedEntries_nil (ms : List docker1.manifest) :
    docker1.matchedEntries [] ms = ms := by
  unfold docker1.matchedEntries
  have key : ∀ (i : Nat) (l : List docker1.manifest),
      ((withIndexFrom i l).filter fun im =>
        filterMatch [] (docker1.adaptImage im.1 im.2)).map (fun im => im.2) = l := by
    intro i l
    induction l generalizing i with
    | nil => rfl
    | cons a as ih =>
      simp [withIndexFrom, List.filter_cons, filterMatch, ih, withIndexFrom_map_snd]
  exact key 0 ms

/-- When no entry has a non-empty Parent, the walk succeeds and collects
exactly the matching entries. -/
theorem docker1.collectMatched_of_noParent (f : Filter) (dms : List docker1.manifest)
    (h : ∀ m ∈ dms, m.Parent = "") (i : Nat) :
    docker1.collectMatched f (withIndexFrom i dms) =
      .ok (((withIndexFrom i dms).filter fun im =>
        filterMatch f (docker1.adaptImage im.1 im.2)).map fun im => im.2) := by
  induction dms generalizing i with
  | nil => rfl
  | cons m rest ih =>
    have hm : m.Parent = "" := h m (List.mem_cons_self m rest)
    have hr : ∀ x ∈ rest, x.Parent = "" := fun x hx => h x (List.mem_cons_of_mem _ hx)
    simp only [withIndexFrom, docker1.collectMatched, hm, ne_eq, not_true_eq_false,
      if_false, ih hr, List.filter_cons]
    by_cases hmatch : filterMatch f (docker1.adaptImage i m) = true
    · simp [hmatch]
    · simp [hmatch]

/-- The walk fails at the first entry (in list order) whose Parent is
non-empty, naming that entry's Parent. -/
theorem docker1.collectMatched_error_of_find (f : Filter) (dms : List docker1.manifest)
    (m0 : docker1.manifest)
    (hfind : dms.find? (fun m => decide (m.Parent ≠ "")) = some m0) (i : Nat) :
    docker1.collectMatched f (withIndexFrom i dms) =
      .error (.generic (docker1.parentMsg m0.Parent)) := by
  induction dms generalizing i with
  | nil => simp [List.find?] at hfind
  | cons m rest ih =>
    by_cases hp : m.Parent = ""
    · rw [List.find?_cons_of_neg _ (by simp [hp])] at hfind
      have hrec := ih hfind (i + 1)
      simp [withIndexFrom, docker1.collectMatched, hp, hrec]
    · rw [List.find?_cons_of_pos _ (by simp [hp])] at hfind
      cases hfind
      simp [withIndexFrom, docker1.collectMatched, hp]

/-- The OCI record loop over a concatenation is the loop over the first part
followed, on success, by the loop over the second. -/
theorem ociImportLoop_append (H : HashFn) (decIdx : Bytes → Option (List Descriptor))
    (filter : String) (xs ys : List TarRecord) (st : Store) (desc : Option Descriptor) :
    oci.importLoop H decIdx filter (xs ++ ys) st desc =
      match oci.importLoop H decIdx filter xs st desc with
      | .error e => .error e
      | .ok (st2, d2) => oci.importLoop H decIdx filter ys st2 d2 := by
  induction xs generalizing st desc with
  | nil => simp [oci.importLoop]
  | cons r rest ih =>
    by_cases h1 : ¬ r.isRegFile
    · simp only [List.cons_append, oci.importLoop, if_pos h1]
      exact ih st desc
    · by_cases h2 : r.name = "index.json"
      · cases hidx : oci.onUntarIndexJSON decIdx r.content filter with
        | error e =>
          simp [oci.importLoop, h1, h2, hidx]
        | ok d =>
          simp [oci.importLoop, h1, h2, hidx, ih]
      · by_cases h3 : strStartsWith r.name "blobs/"
        · cases hb : oci.onUntarBlob H st r.name r.size r.content with
          | error e =>
            simp [oci.importLoop, h1, h2, h3, hb]
          | ok st2 =>
            simp [oci.importLoop, h1, h2, h3, hb, ih]
        · simp [oci.importLoop, h1, h2, h3, ih]

/-- If no regular record of the stream is named `index.json`, the loop never
selects a descriptor. -/
theorem oci.importLoop_no_index (H : HashFn) (decIdx : Bytes → Option (List Descriptor))
    (filter : String) (records : List TarRecord)
    (h : ∀ r ∈ records, r.isRegFile → r.name ≠ "index.json") (st st2 : Store)
    (d : Option Descriptor)
    (hloop : oci.importLoop H decIdx filter records st none = .ok (st2, d)) :
    d = none := by
  induction records generalizing st with
  | nil =>
    simp only [oci.importLoop] at hloop
    cases hloop
    rfl
  | cons r rest ih =>
    have hr : ∀ x ∈ rest, x.isRegFile → x.name ≠ "index.json" :=
      fun x hx => h x (List.mem_cons_of_mem _ hx)
    by_cases h1 : ¬ r.isRegFile
    · rw [oci.importLoop, if_pos h1] at hloop
      exact ih hr st hloop
    · have h2 : r.name ≠ "index.json" :=
        h r (List.mem_cons_self r rest) (not_not.mp h1)
      by_cases h3 : strStartsWith r.name "blobs/"
      · rw [oci.importLoop, if_neg h1, if_neg h2] at hloop
        simp only [h3, if_true] at hloop
        cases hb : oci.onUntarBlob H st r.name r.size r.content with
        | error e => rw [hb] at hloop; cases hloop
        | ok stB => rw [hb] at hloop; exact ih hr stB hloop
      · rw [oci.importLoop, if_neg h1, if_neg h2] at hloop
        simp only [h3, if_false] at hloop
        exact ih hr st hloop

/-- A regular record that is neither `index.json` nor under `blobs/` is
skipped: the loop continues with unchanged state. -/
theorem oci.importLoop_skip (H : HashFn) (decIdx : Bytes → Option (List Descriptor))
    (filter : String) (r : TarRecord) (rest : List TarRecord)
    (h2 : r.name ≠ "index.json") (h3 : strStartsWith r.name "blobs/" = false)
    (st : Store) (desc : Option Descriptor) :
    oci.importLoop H decIdx filter (r :: rest) st desc =
      oci.importLoop H decIdx filter rest st desc := by
  by_cases h1 : ¬ r.isRegFile
  · rw [oci.importLoop, if_pos h1]
  · rw [oci.importLoop, if_neg h1, if_neg h2]
    simp [h3]

theorem storeOk_nil (H : HashFn) : storeOk H [] := by
  intro dg b hmem
  simp at hmem

theorem storeOk_commit (H : HashFn) (st : Store) (dg : Digest) (b : Bytes)
    (hok : storeOk H st) (hdg : dg.hex = H dg.algo b) :
    storeOk H (storeCommit st dg b) := by
  unfold storeCommit
  by_cases hl : (storeLookup st dg).isSome
  · simpa [hl] using hok
  · simp only [hl, if_false]
    intro dg2 b2 hmem
    rcases List.mem_cons.mp hmem with h | h
    · cases h; exact hdg
    · exact hok dg2 b2 h

theorem writeBlob_storeOk (H : HashFn) (st st2 : Store) (data : Bytes) (size : Nat)
    (expected : Option Digest) (dgst : Digest)
    (hw : writeBlob H st data size expected = .ok (st2, dgst))
    (hok : storeOk H st) : storeOk H st2 := by
  unfold writeBlob at hw
  by_cases h1 : data.length < size
  · simp [h1] at hw
  · by_cases h2 : size < data.length
    · simp [h1, h2] at hw
    · simp only [h1, h2, if_false] at hw
      cases expected with
      | none =>
        simp only [Except.ok.injEq, Prod.mk.injEq] at hw
        obtain ⟨h5, h6⟩ := hw
        subst h5
        exact storeOk_commit H st _ data hok rfl
      | some d =>
        by_cases h3 : (⟨d.algo, H d.algo data⟩ : Digest) = d
        · simp only [h3, if_true, Except.ok.injEq, Prod.mk.injEq] at hw
          obtain ⟨h5, h6⟩ := hw
          subst h5
          exact storeOk_commit H st _ data hok (congrArg Digest.hex h3).symm
        · simp [h3] at hw

theorem oci.onUntarBlob_storeOk (H : HashFn) (st st2 : Store) (name : String)
    (size : Nat) (content : Bytes)
    (hb : oci.onUntarBlob H st name size content = .ok st2)
    (hok : storeOk H st) : storeOk H st2 := by
  unfold oci.onUntarBlob at hb
  cases hsplit : strSplit name '/' with
  | nil => rw [hsplit] at hb; cases hb
  | cons s1 tl1 =>
    cases tl1 with
    | nil => rw [hsplit] at hb; cases hb
    | cons s2 tl2 =>
      cases tl2 with
      | nil => rw [hsplit] at hb; cases hb
      | cons s3 tl3 =>
        cases tl3 with
        | nil =>
          rw [hsplit] at hb
          by_cases ha : algoAvailable s2
          · simp only [ha, if_true] at hb
            cases hw : writeBlob H st content size (some ⟨s2, s3⟩) with
            | error e => rw [hw] at hb; cases hb
            | ok p =>
              rw [hw] at hb
              cases hb
              exact writeBlob_storeOk H st p.1 content size _ p.2 (by rw [hw]) hok
          · simp [ha] at hb
        | cons s4 tl4 => rw [hsplit] at hb; cases hb

theorem oci.importLoop_storeOk (H : HashFn) (decIdx : Bytes → Option (List Descriptor))
    (filter : String) (records : List TarRecord) (st st2 : Store)
    (desc d2 : Option Descriptor)
    (hloop : oci.importLoop H decIdx filter records st desc = .ok (st2, d2))
    (hok : storeOk H st) : storeOk H st2 := by
  induction records generalizing st desc with
  | nil =>
    simp only [oci.importLoop] at hloop
    cases hloop
    exact hok
  | cons r rest ih =>
    by_cases h1 : ¬ r.isRegFile
    · rw [oci.importLoop, if_pos h1] at hloop
      exact ih st desc hloop hok
    · by_cases h2 : r.name = "index.json"
      · rw [oci.importLoop, if_neg h1, if_pos h2] at hloop
        cases hidx : oci.onUntarIndexJSON decIdx r.content filter with
        | error e => rw [hidx] at hloop; cases hloop
        | ok d => rw [hidx] at hloop; exact ih st (some d) hloop hok
      · by_cases h3 : strStartsWith r.name "blobs/"
        · rw [oci.importLoop, if_neg h1, if_neg h2] at hloop
          simp only [h3, if_true] at hloop
          cases hb : oci.onUntarBlob H st r.name r.size r.content with
          | error e => rw [hb] at hloop; cases hloop
          | ok stB =>
            rw [hb] at hloop
            exact ih stB desc hloop (oci.onUntarBlob_storeOk H st stB _ _ _ hb hok)
        · rw [oci.importLoop, if_neg h1, if_neg h2] at hloop
          simp only [h3, if_false] at hloop
          exact ih st desc hloop hok

/-- The docker1 record loop over a concatenation is the loop over the first
part followed, on success, by the loop over the second. -/
theorem dockerImportLoop_append (H : HashFn) (decM : Bytes → Option (List docker1.manifest))
    (decI : Bytes → Option docker1.Image) (filter : String)
    (xs ys : List TarRecord) (s : docker1.ScanState) :
    docker1.importLoop H decM decI filter (xs ++ ys) s =
      match docker1.importLoop H decM decI filter xs s with
      | .error e => .error e
      | .ok s2 => docker1.importLoop H decM decI filter ys s2 := by
  induction xs generalizing s with
  | nil => simp [docker1.importLoop]
  | cons r rest ih =>
    by_cases h1 : ¬ r.isRegFile
    · simp only [List.cons_append, docker1.importLoop, if_pos h1]
      exact ih s
    · by_cases h2 : r.name = "manifest.json"
      · cases hm : docker1.onUntarManifestJSON decM r.content filter with
        | error e => simp [docker1.importLoop, h1, h2, hm]
        | ok m => simp [docker1.importLoop, h1, h2, hm, ih]
      · by_cases h3 : docker1.isLayerTar r.name
        · cases hl : docker1.onUntarLayerTar H s.store r.size r.content with
          | error e => simp [docker1.importLoop, h1, h2, h3, hl]
          | ok p =>
            cases p with
            | mk st2 d => simp [docker1.importLoop, h1, h2, h3, hl, ih]
        · by_cases h4 : docker1.isDotJSON r.name
          · cases hc : docker1.onUntarDotJSON H decI s.store r.size r.content with
            | error e => simp [docker1.importLoop, h1, h2, h3, h4, hc]
            | ok p =>
              cases p with
              | mk st2 c => simp [docker1.importLoop, h1, h2, h3, h4, hc, ih]
          · simp [docker1.importLoop, h1, h2, h3, h4, ih]

/-- If no regular record of the stream is named `manifest.json`, the loop
never selects a manifest entry. -/
theorem docker1.importLoop_no_manifest (H : HashFn)
    (decM : Bytes → Option (List docker1.manifest)) (decI : Bytes → Option docker1.Image)
    (filter : String) (records : List TarRecord)
    (h : ∀ r ∈ records, r.isRegFile → r.name ≠ "manifest.json")
    (s s2 : docker1.ScanState) (hm : s.mfst = none)
    (hloop : docker1.importLoop H decM decI filter records s = .ok s2) :
    s2.mfst = none := by
  induction records generalizing s with
  | nil =>
    simp only [docker1.importLoop] at hloop
    cases hloop
    exact hm
  | cons r rest ih =>
    have hr : ∀ x ∈ rest, x.isRegFile → x.name ≠ "manifest.json" :=
      fun x hx => h x (List.mem_cons_of_mem _ hx)
    by_cases h1 : ¬ r.isRegFile
    · rw [docker1.importLoop, if_pos h1] at hloop
      exact ih hr s hm hloop
    · have h2 : r.name ≠ "manifest.json" :=
        h r (List.mem_cons_self r rest) (not_not.mp h1)
      by_cases h3 : docker1.isLayerTar r.name
      · rw [docker1.importLoop, if_neg h1, if_neg h2, if_pos h3] at hloop
        cases hl : docker1.onUntarLayerTar H s.store r.size r.content with
        | error e => rw [hl] at hloop; cases hloop
        | ok p =>
          rw [hl] at hloop
          cases p with
          | mk st2 d =>
            exact ih hr
              { s with store := st2, layers := (r.name, d) :: s.layers } hm hloop
      · by_cases h4 : docker1.isDotJSON r.name
        · rw [docker1.importLoop, if_neg h1, if_neg h2, if_neg h3, if_pos h4] at hloop
          cases hc : docker1.onUntarDotJSON H decI s.store r.size r.content with
          | error e => rw [hc] at hloop; cases hloop
          | ok p =>
            rw [hc] at hloop
            cases p with
            | mk st2 c =>
              exact ih hr
                { s with store := st2, configs := (r.name, c) :: s.configs } hm hloop
        · rw [docker1.importLoop, if_neg h1, if_neg h2, if_neg h3, if_neg h4] at hloop
          exact ih hr s hm hloop

/-- When every layer filename resolves, the resolution succeeds and is the
pointwise lookup, in order. -/
theorem docker1.resolveLayers_all_some (layers : List (String × Descriptor))
    (fs : List String) (h : ∀ f ∈ fs, (tblLookup layers f).isSome) :
    ∃ ds, docker1.resolveLayers layers fs = .ok ds ∧ ds.length = fs.length ∧
      ∀ (i : Nat) (h1 : i < fs.length) (h2 : i < ds.length),
        tblLookup layers (fs.get ⟨i, h1⟩) = some (ds.get ⟨i, h2⟩) := by
  induction fs with
  | nil =>
    refine ⟨[], rfl, rfl, ?_⟩
    intro i h1 h2
    exact absurd h1 (Nat.not_lt_zero i)
  | cons f fs' ih =>
    have hf : (tblLookup layers f).isSome := h f (List.mem_cons_self f fs')
    obtain ⟨d, hd⟩ := Option.isSome_iff_exists.mp hf
    obtain ⟨ds', hres, hlen, hidx⟩ :=
      ih (fun x hx => h x (List.mem_cons_of_mem _ hx))
    refine ⟨d :: ds', ?_, by simp [hlen], ?_⟩
    · rw [docker1.resolveLayers, hd, hres]
    · intro i h1 h2
      cases i with
      | zero => simpa using hd
      | succ j =>
        have hj1 : j < fs'.length := Nat.lt_of_succ_lt_succ h1
        have hj2 : j < ds'.length := Nat.lt_of_succ_lt_succ h2
        simpa using hidx j hj1 hj2

/-- The resolution fails at the first missing layer filename, naming it. -/
theorem docker1.resolveLayers_first_missing (layers : List (String × Descriptor))
    (fs : List String) (f0 : String)
    (hfind : fs.find? (fun f => (tblLookup layers f).isNone) = some f0) :
    docker1.resolveLayers layers fs = .error (.generic (docker1.missingLayerMsg f0)) := by
  induction fs with
  | nil => simp [List.find?] at hfind
  | cons f fs' ih =>
    by_cases hf : (tblLookup layers f).isNone
    · rw [List.find?_cons_of_pos _ (by simpa using hf)] at hfind
      cases hfind
      rw [docker1.resolveLayers, Option.isNone_iff_eq_none.mp hf]
    · rw [List.find?_cons_of_neg _ (by simpa using hf)] at hfind
      have hf2 : (tblLookup layers f).isSome := by
        cases hl : tblLookup layers f with
        | none => exact absurd (by simp [hl]) hf
        | some d => simp
      obtain ⟨d, hd⟩ := Option.isSome_iff_exists.mp hf2
      rw [docker1.resolveLayers, hd, ih hfind]

/-- When no entry has a non-empty Parent, the walk collects exactly the
matching entries. -/
theorem docker1.collectMatched_eq_matchedEntries (f : Filter)
    (dms : List docker1.manifest) (hpar : ∀ m ∈ dms, m.Parent = "") :
    docker1.collectMatched f (withIndexFrom 0 dms) = .ok (docker1.matchedEntries f dms) :=
  docker1.collectMatched_of_noParent f dms hpar 0

/-! ## Claims -/

/-- C1: For every candidate manifest list and every well-formed filter
expression, in both the OCI and legacy variants, selection computes the
subset of candidates matching the predicate and then: if exactly one
candidate matches, it returns that candidate; if more than one matches, it
fails with Ambiguous; if none matches, it fails with NotFound — and Ambiguous
and NotFound are distinct, caller-distinguishable error kinds. (For the
legacy variant, the candidate list is one of valid LegacyManifestEntry
values, whose data-model invariant is an empty parentRef.) -/
theorem c1_selection_trichotomy (filter : String) (f : Filter)
    (hf : parseFilter filter = some f) (ms : List Descriptor)
    (dms : List docker1.manifest) (hpar : ∀ m ∈ dms, m.Parent = "") :
    (oci.matchedManifests f ms = [] →
      oci.filterManifests ms filter = .error (.notFound (notFoundMsg filter))) ∧
    (1 < (oci.matchedManifests f ms).length →
      oci.filterManifests ms filter =
        .error (.ambiguous (ambiguousMsg filter (oci.matchedManifests f ms).length))) ∧
    (∀ m, oci.matchedManifests f ms = [m] →
      oci.filterManifests ms filter = .ok m) ∧
    (docker1.matchedEntries f dms = [] →
      docker1.filterManifests dms filter = .error (.notFound (notFoundMsg filter))) ∧
    (1 < (docker1.matchedEntries f dms).length →
      docker1.filterManifests dms filter =
        .error (.ambiguous (ambiguousMsg filter (docker1.matchedEntries f dms).length))) ∧
    (∀ m, docker1.matchedEntries f dms = [m] →
      docker1.filterManifests dms filter = .ok m) ∧
    (∀ s t, ImportErr.notFound s ≠ ImportErr.ambiguous t) := by
  have hcm := docker1.collectMatched_eq_matchedEntries f dms hpar
  refine ⟨?_, ?_, ?_, ?_, ?_, ?_, ?_⟩
  · intro h
    simp [oci.filterManifests, hf, h]
  · intro h
    simp [oci.filterManifests, hf, h]
  · intro m h
    simp [oci.filterManifests, hf, h]
  · intro h
    simp [docker1.filterManifests, hf, hcm, h]
  · intro h
    simp [docker1.filterManifests, hf, hcm, h]
  · intro m h
    simp [docker1.filterManifests, hf, hcm, h]
  · intro s t h
    cases h

theorem c1_witness :
    oci.filterManifests [d0] "index==0" = .ok d0 ∧
    docker1.filterManifests [dm0] "index==0" = .ok dm0 := by
  have h := c1_selection_trichotomy "index==0" [("index", "0")] (by decide)
    [d0] [dm0] (by decide)
  exact ⟨h.2.2.1 d0 (by decide), h.2.2.2.2.2.1 dm0 (by decide)⟩

/-- C3: The empty filter expression is the predicate that matches every
candidate; consequently, for every candidate list of size exactly 1,
selection with expression "" succeeds and returns that single candidate
regardless of its field values, while for every candidate list of size 2 or
more, selection with expression "" fails with Ambiguous. (For the legacy
variant, the candidates are valid LegacyManifestEntry values, whose
data-model invariant is an empty parentRef.) -/
theorem c3_empty_expression (m : Descriptor) (ms : List Descriptor)
    (hms : 2 ≤ ms.length) (dm : docker1.manifest) (hdm : dm.Parent = "")
    (dms : List docker1.manifest) (hdms : 2 ≤ dms.length)
    (hpar : ∀ x ∈ dms, x.Parent = "") :
    oci.filterManifests [m] "" = .ok m ∧
    oci.filterManifests ms "" = .error (.ambiguous (ambiguousMsg "" ms.length)) ∧
    docker1.filterManifests [dm] "" = .ok dm ∧
    docker1.filterManifests dms "" = .error (.ambiguous (ambiguousMsg "" dms.length)) := by
  have hcm := docker1.collectMatched_eq_matchedEntries [] dms hpar
  have hcm1 : docker1.collectMatched [] (withIndexFrom 0 [dm]) =
      .ok (docker1.matchedEntries [] [dm]) :=
    docker1.collectMatched_eq_matchedEntries [] [dm] (by simpa using hdm)
  refine ⟨?_, ?_, ?_, ?_⟩
  · simp [oci.filterManifests, parseFilter_empty, oci.matchedManifests_nil]
  · have h1 : 1 < ms.length := by omega
    simp [oci.filterManifests, parseFilter_empty, oci.matchedManifests_nil, h1]
  · simp [docker1.filterManifests, parseFilter_empty, hcm1, docker1.matchedEntries_nil]
  · have h1 : 1 < dms.length := by omega
    simp [docker1.filterManifests, parseFilter_empty, hcm,
      docker1.matchedEntries_nil, h1]

theorem oci.onUntarBlob_mismatch (H : HashFn) (st : Store) (name algo hex : String)
    (content : Bytes) (hsplit : strSplit name '/' = ["blobs", algo, hex])
    (halgo : algoAvailable algo = true) (hmis : H algo content ≠ hex) :
    oci.onUntarBlob H st name content.length content =
      .error (.digestMismatch ⟨algo, hex⟩ ⟨algo, H algo content⟩) := by
  unfold oci.onUntarBlob
  rw [hsplit]
  simp only [halgo, if_true]
  unfold writeBlob
  have hne : (⟨algo, H algo content⟩ : Digest) ≠ ⟨algo, hex⟩ := by
    intro hcontra
    exact hmis (congrArg Digest.hex hcontra)
  simp [hne]

/-- C2: For every OCI blob record whose name encodes an expected digest
(blobs/algorithm/hex), if the cryptographic hash of the bytes actually
ingested differs from the name-encoded digest, then the Import call fails
with DigestMismatch; and Import never succeeds while storing content whose
hash disagrees with the digest it is committed under. -/
theorem c2_digest_mismatch (H : HashFn) (decIdx : Bytes → Option (List Descriptor))
    (filter : String) (pre post : List TarRecord) (r : TarRecord) (algo hex : String)
    (hreg : r.isRegFile) (hname : r.name ≠ "index.json")
    (hblob : strStartsWith r.name "blobs/" = true)
    (hsplit : strSplit r.name '/' = ["blobs", algo, hex])
    (halgo : algoAvailable algo = true)
    (hsize : r.size = r.content.length)
    (hmis : H algo r.content ≠ hex)
    (st : Store) (d : Option Descriptor)
    (hscan : oci.importLoop H decIdx filter pre [] none = .ok (st, d)) :
    oci.Import H decIdx (pre ++ r :: post) filter =
      .error (.digestMismatch ⟨algo, hex⟩ ⟨algo, H algo r.content⟩) ∧
    (∀ records st2 desc, oci.Import H decIdx records filter = .ok (st2, desc) →
      ∀ dg b, (dg, b) ∈ st2 → dg.hex = H dg.algo b) := by
  constructor
  · have hb : oci.onUntarBlob H st r.name r.size r.content =
        .error (.digestMismatch ⟨algo, hex⟩ ⟨algo, H algo r.content⟩) := by
      rw [hsize]
      exact oci.onUntarBlob_mismatch H st r.name algo hex r.content hsplit halgo hmis
    have hloop : oci.importLoop H decIdx filter (r :: post) st d =
        .error (.digestMismatch ⟨algo, hex⟩ ⟨algo, H algo r.content⟩) := by
      rw [oci.importLoop, if_neg (not_not_intro hreg), if_neg hname]
      simp only [hblob, if_true, hb]
    unfold oci.Import
    rw [ociImportLoop_append, hscan]
    simp only [hloop]
  · intro records st2 desc h
    unfold oci.Import at h
    cases hl : oci.importLoop H decIdx filter records [] none with
    | error e => rw [hl] at h; cases h
    | ok p =>
      rw [hl] at h
      cases p with
      | mk stp dp =>
        cases dp with
        | none => cases h
        | some dd =>
          cases h
          intro dg b hmem
          exact oci.importLoop_storeOk H decIdx filter records [] _ none _
            hl (storeOk_nil H) dg b hmem

theorem c2_witness :
    oci.Import hash0 decIdx0 [⟨"blobs/sha256/aa", TypeFlag.reg, 0, []⟩] "" =
      .error (.digestMismatch ⟨"sha256", "aa"⟩ ⟨"sha256", "0"⟩) :=
  (c2_digest_mismatch hash0 decIdx0 "" [] []
    ⟨"blobs/sha256/aa", TypeFlag.reg, 0, []⟩ "sha256" "aa"
    (by decide) (by decide) (by decide) (by decide) (by decide) (by decide)
    (by decide) [] none rfl).1

/-- C6 (amended): for every input archive stream (in either variant,
independently) whose scan completes without containing that variant's
metadata manifest-file record ("index.json" for OCI, "manifest.json" for
legacy), Import fails — but with the untyped `errors.Errorf` error naming the
filter ("no descriptor found..." / "no manifest found..."), not with the
typed errdefs NotFound error. Each variant is quantified over its own
streams: the OCI half holds e.g. for streams that do contain
"manifest.json", and the legacy half for streams whose records would abort
the OCI scan. -/
theorem c6_no_manifest_generic_error :
    (∀ (H : HashFn) (decIdx : Bytes → Option (List Descriptor))
      (records : List TarRecord) (filter : String) (st : Store) (d : Option Descriptor),
      (∀ r ∈ records, r.isRegFile → r.name ≠ "index.json") →
      oci.importLoop H decIdx filter records [] none = .ok (st, d) →
      oci.Import H decIdx records filter =
        .error (.generic ("no descriptor found for filter " ++ quoted filter)) ∧
      errIsNotFound (oci.Import H decIdx records filter) = false) ∧
    (∀ (H : HashFn) (decM : Bytes → Option (List docker1.manifest))
      (decI : Bytes → Option docker1.Image) (encM : Manifest → Bytes)
      (records : List TarRecord) (filter : String) (s : docker1.ScanState),
      (∀ r ∈ records, r.isRegFile → r.name ≠ "manifest.json") →
      docker1.importLoop H decM decI filter records docker1.initState = .ok s →
      docker1.Import H decM decI encM records filter =
        .error (.generic ("no manifest found for filter " ++ quoted filter)) ∧
      errIsNotFound (docker1.Import H decM decI encM records filter) = false) := by
  constructor
  · intro H decIdx records filter st d hoci hscan1
    have hd : d = none :=
      oci.importLoop_no_index H decIdx filter records hoci [] st d hscan1
    subst hd
    have h1 : oci.Import H decIdx records filter =
        .error (.generic ("no descriptor found for filter " ++ quoted filter)) := by
      unfold oci.Import
      rw [hscan1]
    exact ⟨h1, by rw [h1]; rfl⟩
  · intro H decM decI encM records filter s hdocker hscan2
    have hmf : s.mfst = none :=
      docker1.importLoop_no_manifest H decM decI filter records hdocker
        docker1.initState s rfl hscan2
    have h2 : docker1.Import H decM decI encM records filter =
        .error (.generic ("no manifest found for filter " ++ quoted filter)) := by
      unfold docker1.Import
      rw [hscan2]
      simp only [hmf]
    exact ⟨h2, by rw [h2]; rfl⟩

theorem c6_witness :
    (oci.Import hash0 decIdx0 [⟨"manifest.json", TypeFlag.reg, 0, []⟩] "" =
      .error (.generic ("no descriptor found for filter " ++ quoted "")) ∧
      errIsNotFound
        (oci.Import hash0 decIdx0 [⟨"manifest.json", TypeFlag.reg, 0, []⟩] "") = false) ∧
    (docker1.Import hash0 decM0 decI0 encM0
        [⟨"blobs/sha256/aa", TypeFlag.reg, 0, []⟩] "" =
      .error (.generic ("no manifest found for filter " ++ quoted "")) ∧
      errIsNotFound (docker1.Import hash0 decM0 decI0 encM0
        [⟨"blobs/sha256/aa", TypeFlag.reg, 0, []⟩] "") = false) :=
  ⟨c6_no_manifest_generic_error.1 hash0 decIdx0
    [⟨"manifest.json", TypeFlag.reg, 0, []⟩] "" [] none (by decide) rfl,
   c6_no_manifest_generic_error.2 hash0 decM0 decI0 encM0
    [⟨"blobs/sha256/aa", TypeFlag.reg, 0, []⟩] "" docker1.initState
    (by decide) rfl⟩

/-- C6 counterexample: on the empty stream — which reaches end-of-stream with
no metadata manifest-file record — both variants' Import fails, but not with
the typed NotFound error kind used by selection (it fails with the untyped
`errors.Errorf` error instead). -/
theorem c6_counterexample :
    isFailure (oci.Import hash0 decIdx0 [] "") = true ∧
    errIsNotFound (oci.Import hash0 decIdx0 [] "") = false ∧
    isFailure (docker1.Import hash0 decM0 decI0 encM0 [] "") = true ∧
    errIsNotFound (docker1.Import hash0 decM0 decI0 encM0 [] "") = false := by
  decide

/-- C7 (amended): in the OCI variant, every regular-file record whose name is
not exactly "index.json" and does not begin with "blobs/" is ignored: the
record is skipped without raising an error, without ingesting content, and
without affecting the final result. (A record whose name begins with
"blobs/" but does not have the three-segment form blobs/algorithm/hex is
not ignored: Import fails with an unexpected-name error.) -/
theorem c7_other_names_ignored (H : HashFn) (decIdx : Bytes → Option (List Descriptor))
    (filter : String) (pre post : List TarRecord) (r : TarRecord)
    (_hreg : r.isRegFile) (h2 : r.name ≠ "index.json")
    (h3 : strStartsWith r.name "blobs/" = false) :
    oci.Import H decIdx (pre ++ r :: post) filter =
      oci.Import H decIdx (pre ++ post) filter := by
  unfold oci.Import
  rw [ociImportLoop_append, ociImportLoop_append]
  cases hl : oci.importLoop H decIdx filter pre [] none with
  | error e => rfl
  | ok p =>
    cases p with
    | mk st d => simp only [oci.importLoop_skip H decIdx filter r post h2 h3 st d]

theorem c7_witness :
    oci.Import hash0 decIdx0 [⟨"foo.txt", TypeFlag.reg, 0, []⟩] "" =
      oci.Import hash0 decIdx0 [] "" :=
  c7_other_names_ignored hash0 decIdx0 "" [] [] ⟨"foo.txt", TypeFlag.reg, 0, []⟩
    (by decide) (by decide) (by decide)

/-- C7 counterexample: the regular record named "blobs/sha256" does not match
the blob pattern blobs/algorithm/hex (it has only two path segments), yet it
is not ignored: Import raises the unexpected-name error. -/
theorem c7_counterexample :
    oci.Import hash0 decIdx0 [⟨"blobs/sha256", TypeFlag.reg, 0, []⟩] "" =
      .error (.generic ("unexpected name: " ++ quoted "blobs/sha256")) := by
  decide

/-- C4: In the legacy variant, after the full stream scan, if the selected
manifest entry's configRef is absent from the ConfigTable, or any filename in
its layerRefs is absent from the LayerTable, the Import call fails with the
missing-reference error naming the missing filename; a missing reference is
never silently skipped and no output descriptor is produced. -/
theorem c4_missing_reference (H : HashFn)
    (decM : Bytes → Option (List docker1.manifest)) (decI : Bytes → Option docker1.Image)
    (encM : Manifest → Bytes) (records : List TarRecord) (filter : String)
    (s : docker1.ScanState)
    (hscan : docker1.importLoop H decM decI filter records docker1.initState = .ok s)
    (mfst : docker1.manifest) (hm : s.mfst = some mfst) :
    (tblLookup s.configs mfst.Config = none →
      docker1.Import H decM decI encM records filter =
        .error (.generic (docker1.missingConfigMsg mfst.Config filter))) ∧
    (∀ config f0, tblLookup s.configs mfst.Config = some config →
      mfst.Layers.find? (fun f => (tblLookup s.layers f).isNone) = some f0 →
      docker1.Import H decM decI encM records filter =
        .error (.generic (docker1.missingLayerMsg f0))) := by
  constructor
  · intro hc
    unfold docker1.Import
    rw [hscan]
    simp only [hm, hc]
  · intro config f0 hc hfind
    unfold docker1.Import
    rw [hscan]
    simp only [hm, hc]
    unfold docker1.makeDockerSchema2Manifest
    rw [docker1.resolveLayers_first_missing s.layers mfst.Layers f0 hfind]

theorem c4_witness :
    docker1.Import hash0 (fun _ => some [dm0]) decI0 encM0
      [⟨"manifest.json", TypeFlag.reg, 0, []⟩] "" =
      .error (.generic (docker1.missingConfigMsg "c.json" "")) ∧
    docker1.Import hash0 (fun _ => some [dm1]) (fun _ => some ⟨"", ""⟩) encM0
      [⟨"manifest.json", TypeFlag.reg, 0, []⟩, ⟨"c.json", TypeFlag.reg, 0, []⟩] "" =
      .error (.generic (docker1.missingLayerMsg "l1/layer.tar")) := by
  constructor
  · exact (c4_missing_reference hash0 (fun _ => some [dm0]) decI0 encM0
      [⟨"manifest.json", TypeFlag.reg, 0, []⟩] "" ⟨[], some dm0, [], []⟩
      (by decide) dm0 rfl).1 (by decide)
  · exact (c4_missing_reference hash0 (fun _ => some [dm1]) (fun _ => some ⟨"", ""⟩)
      encM0 [⟨"manifest.json", TypeFlag.reg, 0, []⟩, ⟨"c.json", TypeFlag.reg, 0, []⟩]
      "" sB (by decide) dm1 rfl).2 cfg1 "l1/layer.tar" (by decide) (by decide)

/-- When every layer filename resolves, the resolution is the pointwise
lookup, in order. -/
theorem docker1.resolveLayers_eq_map (layers : List (String × Descriptor))
    (fs : List String) (h : ∀ f ∈ fs, (tblLookup layers f).isSome) :
    docker1.resolveLayers layers fs =
      .ok (fs.map fun f => (tblLookup layers f).getD descDefault) := by
  induction fs with
  | nil => rfl
  | cons f fs' ih =>
    obtain ⟨d, hd⟩ := Option.isSome_iff_exists.mp (h f (List.mem_cons_self f fs'))
    rw [docker1.resolveLayers, hd, ih (fun x hx => h x (List.mem_cons_of_mem _ hx))]
    simp [hd]

/-- C5: In the legacy variant, when every reference resolves, the assembled
canonical manifest has schemaVersion 2, its config field equal to the
descriptor committed for the entry's configRef, and its layers field equal to
the sequence obtained by looking up each filename of the entry's layerRefs in
the LayerTable in the same order — the i-th assembled layer descriptor is the
resolution of the i-th layerRef. -/
theorem c5_schema2_assembly (mfst : docker1.manifest) (config : docker1.imageConfig)
    (layers : List (String × Descriptor))
    (h : ∀ f ∈ mfst.Layers, (tblLookup layers f).isSome) :
    docker1.makeDockerSchema2Manifest mfst config layers =
      .ok { schemaVersion := 2, config := config.desc,
            layers := mfst.Layers.map fun f => (tblLookup layers f).getD descDefault } := by
  unfold docker1.makeDockerSchema2Manifest
  rw [docker1.resolveLayers_eq_map layers mfst.Layers h]

theorem c5_witness :
    docker1.makeDockerSchema2Manifest dm1 cfg1 [("l1/layer.tar", d0)] =
      .ok { schemaVersion := 2, config := cfg1.desc,
            layers := dm1.Layers.map
              fun f => (tblLookup [("l1/layer.tar", d0)] f).getD descDefault } :=
  c5_schema2_assembly dm1 cfg1 [("l1/layer.tar", d0)] (by decide)

/-- C8: In the legacy variant's translator, the final output descriptor
carries a platform field if and only if the parsed config's architecture or
OS is a non-empty string; when both are empty the descriptor's platform is
entirely absent (none), never an empty platform object, and when present it
contains exactly the parsed architecture and OS. -/
theorem c8_platform_presence (H : HashFn) (encM : Manifest → Bytes) (st : Store)
    (m : Manifest) (arch os : String) (st2 : Store) (desc : Descriptor)
    (hw : docker1.writeDockerSchema2Manifest H encM st m arch os = .ok (st2, desc)) :
    (desc.platform = none ↔ arch = "" ∧ os = "") ∧
    ((arch ≠ "" ∨ os ≠ "") → desc.platform = some ⟨arch, os, ""⟩) ∧
    desc.mediaType = MediaTypeDockerSchema2Manifest := by
  unfold docker1.writeDockerSchema2Manifest writeBlob at hw
  simp only [lt_self_iff_false, if_false, computedDigest, if_pos rfl, if_true,
    Except.ok.injEq, Prod.mk.injEq] at hw
  obtain ⟨h5, h6⟩ := hw
  subst h6
  by_cases hcond : arch ≠ "" ∨ os ≠ ""
  · refine ⟨?_, fun _ => by simp [hcond], rfl⟩
    simp only [hcond, if_true]
    constructor
    · intro hsome; cases hsome
    · intro hboth
      rcases hcond with hc | hc
      · exact absurd hboth.1 hc
      · exact absurd hboth.2 hc
  · push_neg at hcond
    refine ⟨?_, fun habs => ?_, rfl⟩
    · simp [hcond.1, hcond.2]
    · rcases habs with hc | hc
      · exact absurd hcond.1 hc
      · exact absurd hcond.2 hc

theorem c8_witness :
    (descX.platform = none ↔ "amd64" = "" ∧ "linux" = "") ∧
    (("amd64" ≠ "" ∨ "linux" ≠ "") → descX.platform = some ⟨"amd64", "linux", ""⟩) ∧
    descX.mediaType = MediaTypeDockerSchema2Manifest :=
  c8_platform_presence hash0 encM0 [] mnf0 "amd64" "linux"
    [(⟨"sha256", "0"⟩, [])] descX (by decide)

/-- C9: A legacy manifest entry whose parentRef (Parent field) is non-empty
cannot be imported: whenever the entry that would be selected (the unique
entry matching the predicate) has a non-empty Parent, selection — and with it
the whole Import call — fails with the unsupported-parent error (naming the
Parent of the first offending entry in list order) and no output descriptor
is produced. -/
theorem c9_parent_unsupported (H : HashFn)
    (decM : Bytes → Option (List docker1.manifest)) (decI : Bytes → Option docker1.Image)
    (encM : Manifest → Bytes) (filter : String) (f : Filter)
    (hf : parseFilter filter = some f)
    (pre post : List TarRecord) (mrec : TarRecord)
    (hreg : mrec.isRegFile) (hname : mrec.name = "manifest.json")
    (dms : List docker1.manifest) (hdec : decM mrec.content = some dms)
    (i : Nat) (m : docker1.manifest)
    (hsel : (withIndexFrom 0 dms).filter
      (fun im => filterMatch f (docker1.adaptImage im.1 im.2)) = [(i, m)])
    (hpar : m.Parent ≠ "")
    (s : docker1.ScanState)
    (hscan : docker1.importLoop H decM decI filter pre docker1.initState = .ok s) :
    ∃ p, p ≠ "" ∧
      docker1.filterManifests dms filter = .error (.generic (docker1.parentMsg p)) ∧
      docker1.Import H decM decI encM (pre ++ mrec :: post) filter =
        .error (.generic (docker1.parentMsg p)) := by
  have hmem0 : (i, m) ∈ (withIndexFrom 0 dms).filter
      (fun im => filterMatch f (docker1.adaptImage im.1 im.2)) := by
    rw [hsel]
    exact List.mem_singleton_self _
  have hmem : m ∈ dms := withIndexFrom_mem_snd (List.mem_of_mem_filter hmem0)
  have hex : (dms.find? fun mm => decide (mm.Parent ≠ "")).isSome := by
    rw [List.find?_isSome]
    exact ⟨m, hmem, by simpa using hpar⟩
  obtain ⟨m0, hfind⟩ := Option.isSome_iff_exists.mp hex
  have hp0 : m0.Parent ≠ "" := by simpa using List.find?_some hfind
  have hfm : docker1.filterManifests dms filter =
      .error (.generic (docker1.parentMsg m0.Parent)) := by
    simp only [docker1.filterManifests, hf,
      docker1.collectMatched_error_of_find f dms m0 hfind 0]
  have hone : docker1.onUntarManifestJSON decM mrec.content filter =
      .error (.generic (docker1.parentMsg m0.Parent)) := by
    simp only [docker1.onUntarManifestJSON, hdec, hfm]
  have hloop : docker1.importLoop H decM decI filter (mrec :: post) s =
      .error (.generic (docker1.parentMsg m0.Parent)) := by
    rw [docker1.importLoop, if_neg (not_not_intro hreg), if_pos hname]
    simp only [hone]
  refine ⟨m0.Parent, hp0, hfm, ?_⟩
  unfold docker1.Import
  rw [dockerImportLoop_append, hscan]
  simp only [hloop]

theorem c9_witness :
    ∃ p, p ≠ "" ∧
      docker1.filterManifests [⟨"c.json", [], [], "p"⟩] "" =
        .error (.generic (docker1.parentMsg p)) ∧
      docker1.Import hash0 (fun _ => some [⟨"c.json", [], [], "p"⟩]) decI0 encM0
        [⟨"manifest.json", TypeFlag.reg, 0, []⟩] "" =
        .error (.generic (docker1.parentMsg p)) :=
  c9_parent_unsupported hash0 (fun _ => some [⟨"c.json", [], [], "p"⟩]) decI0 encM0
    "" [] (by decide) [] [] ⟨"manifest.json", TypeFlag.reg, 0, []⟩ (by decide) rfl
    [⟨"c.json", [], [], "p"⟩] rfl 0 ⟨"c.json", [], [], "p"⟩ (by decide) (by decide)
    docker1.initState rfl

/-- C10 (implicit): in the legacy variant, the Parent check is applied to
every entry of the manifest.json list during filtering, before match
evaluation — so if any entry in the list has a non-empty Parent, the entire
Import call fails (with the error naming the first such entry in list order),
even when the filter expression would uniquely select a different entry whose
Parent is empty (the statement holds for every well-formed filter
expression). -/
theorem c10_parent_checked_first (H : HashFn)
    (decM : Bytes → Option (List docker1.manifest)) (decI : Bytes → Option docker1.Image)
    (encM : Manifest → Bytes) (filter : String) (f : Filter)
    (hf : parseFilter filter = some f)
    (pre post : List TarRecord) (mrec : TarRecord)
    (hreg : mrec.isRegFile) (hname : mrec.name = "manifest.json")
    (dms : List docker1.manifest) (hdec : decM mrec.content = some dms)
    (m0 : docker1.manifest)
    (hfirst : dms.find? (fun m => decide (m.Parent ≠ "")) = some m0)
    (s : docker1.ScanState)
    (hscan : docker1.importLoop H decM decI filter pre docker1.initState = .ok s) :
    docker1.Import H decM decI encM (pre ++ mrec :: post) filter =
      .error (.generic (docker1.parentMsg m0.Parent)) := by
  have hfm : docker1.filterManifests dms filter =
      .error (.generic (docker1.parentMsg m0.Parent)) := by
    simp only [docker1.filterManifests, hf,
      docker1.collectMatched_error_of_find f dms m0 hfirst 0]
  have hone : docker1.onUntarManifestJSON decM mrec.content filter =
      .error (.generic (docker1.parentMsg m0.Parent)) := by
    simp only [docker1.onUntarManifestJSON, hdec, hfm]
  have hloop : docker1.importLoop H decM decI filter (mrec :: post) s =
      .error (.generic (docker1.parentMsg m0.Parent)) := by
    rw [docker1.importLoop, if_neg (not_not_intro hreg), if_pos hname]
    simp only [hone]
  unfold docker1.Import
  rw [dockerImportLoop_append, hscan]
  simp only [hloop]

theorem c10_witness :
    docker1.Import hash0 (fun _ => some [⟨"c.json", [], [], "p"⟩, dm0]) decI0 encM0
      [⟨"manifest.json", TypeFlag.reg, 0, []⟩] "index==1" =
      .error (.generic (docker1.parentMsg "p")) :=
  c10_parent_checked_first hash0 (fun _ => some [⟨"c.json", [], [], "p"⟩, dm0])
    decI0 encM0 "index==1" [("index", "1")] (by decide) [] []
    ⟨"manifest.json", TypeFlag.reg, 0, []⟩ (by decide) rfl
    [⟨"c.json", [], [], "p"⟩, dm0] rfl ⟨"c.json", [], [], "p"⟩ (by decide)
    docker1.initState rfl

theorem c3_witness :
    oci.filterManifests [d0] "" = .ok d0 ∧
    oci.filterManifests [d0, d0] "" = .error (.ambiguous (ambiguousMsg "" 2)) ∧
    docker1.filterManifests [dm0] "" = .ok dm0 ∧
    docker1.filterManifests [dm0, dm0] "" = .error (.ambiguous (ambiguousMsg "" 2)) :=
  c3_empty_expression d0 [d0, d0] (by decide) dm0 (by decide) [dm0, dm0]
    (by decide) (by decide)

end ContainerdImport
